import Mathlib

/-!
Shallow embedding of the configuration-page logic of the calibration
analyzer (the `config.js` browser script): the range-setting normalizer
`normalizeRangeSetting`, the row extractor `getConfigurations`, the
save-direction serialization from `saveConfig`, and the matcher/merger
`applyConfig`.

Modelling conventions:
* JavaScript numbers are modelled as `JNum`: either NaN or an exact
  rational.  (Float64 rounding is not modelled; every value the claims
  touch is a small decimal, exact in both models.)
* JavaScript values that flow through the config document are modelled
  by `JVal` (undefined, null, string, number).
* `parseFloat` is modelled for its decimal fragment: leading
  whitespace, an optional sign, digits, an optional fractional part,
  longest-prefix semantics, NaN when no digit is consumed.  Exponent
  notation and the `Infinity` literals are outside the model scope; no
  input in this development uses them.
* `Number.prototype.toString` is modelled by `numToString`, printing
  the shortest plain decimal form of a rational whose denominator
  divides a power of ten (every value produced by `parseFloat` has this
  shape).
* Rational subtraction and absolute value are computed through
  `Rat.divInt` (so that concrete runs reduce inside the kernel); the
  lemmas `qSub_eq` and `qAbs_eq` prove they agree with `Sub.sub` and
  `abs` on `ℚ`.
* A DOM row of the configuration table is modelled by `Row`: the three
  `data-` attributes (strings in the generated table) and the three
  text-input values.
-/

/-- Rational subtraction, computed on numerators and denominators.
`qSub_eq` proves `qSub a b = a - b`. -/
def qSub (a b : ℚ) : ℚ := Rat.divInt (a.num * b.den - b.num * a.den) (a.den * b.den)

/-- Rational absolute value, computed on the numerator.
`qAbs_eq` proves `qAbs a = |a|`. -/
def qAbs (a : ℚ) : ℚ := Rat.divInt a.num.natAbs a.den

inductive JNum where
  | nan : JNum
  | fin : ℚ → JNum
deriving DecidableEq

def JNum.isNaN : JNum → Bool
  | .nan => true
  | .fin _ => false

/-- Value of a JS number when it is known finite (0 as a dummy for NaN). -/
def JNum.toQ : JNum → ℚ
  | .nan => 0
  | .fin q => q

/-- JS subtraction: NaN propagates. -/
def JNum.sub : JNum → JNum → JNum
  | .fin a, .fin b => .fin (qSub a b)
  | _, _ => .nan

/-- JS `Math.abs`: NaN propagates. -/
def JNum.jabs : JNum → JNum
  | .fin a => .fin (qAbs a)
  | .nan => .nan

/-- JS `<` on numbers: any comparison involving NaN is false. -/
def JNum.ltB : JNum → JNum → Bool
  | .fin a, .fin b => decide (a < b)
  | _, _ => false

inductive JVal where
  | undef : JVal
  | null : JVal
  | str : String → JVal
  | num : JNum → JVal
deriving DecidableEq

/-- JS `===` (strict equality); note `NaN === NaN` is false. -/
def jsStrictEq : JVal → JVal → Bool
  | .str a, .str b => a == b
  | .num (.fin a), .num (.fin b) => a == b
  | .null, .null => true
  | .undef, .undef => true
  | _, _ => false

/-- Model of JS `String.prototype.trim` on a character list. -/
def trimChars (l : List Char) : List Char :=
  ((l.dropWhile Char.isWhitespace).reverse.dropWhile Char.isWhitespace).reverse

/-- Model of JS `String.prototype.trim`. -/
def jsTrim (s : String) : String := String.mk (trimChars s.data)

/-! ### Number printing (`Number.prototype.toString`) -/

/-- Count and strip factors of `p` (fuel-based so it reduces in the kernel). -/
def facCount (p : Nat) : Nat → Nat → Nat × Nat
  | 0, n => (0, n)
  | fuel + 1, n =>
    if 2 ≤ n ∧ n % p = 0 then
      let r := facCount p fuel (n / p)
      (r.1 + 1, r.2)
    else (0, n)

/-- Little-endian decimal digits of `n` (fuel-based; `natDigitsAux n n` is exact). -/
def natDigitsAux : Nat → Nat → List Nat
  | 0, _ => []
  | fuel + 1, n => if n = 0 then [] else n % 10 :: natDigitsAux fuel (n / 10)

def digitChar (d : Nat) : Char := Char.ofNat (48 + d)

/-- Decimal digit characters of `n`, most significant first. -/
def natToChars (n : Nat) : List Char :=
  if n = 0 then [ '0' ] else ((natDigitsAux n n).map digitChar).reverse

/-- Exactly `e` digit characters for `a` (with leading zeros), most significant first. -/
def padDigits : Nat → Nat → List Char
  | 0, _ => []
  | e + 1, a => digitChar (a / 10 ^ e) :: padDigits e (a % 10 ^ e)

/-- JS `Number.prototype.toString` for finite values: shortest plain decimal
form.  Rationals whose denominator is not a product of 2s and 5s cannot arise
from `parseFloat`; for totality they print as a fraction. -/
def numToString (q : ℚ) : String :=
  let d := q.den
  let c2 := facCount 2 d d
  let c5 := facCount 5 c2.2 c2.2
  if c5.2 = 1 then
    let e := max c2.1 c5.1
    let a := q.num.natAbs * (10 ^ e / d)
    let sgn : List Char := if q.num < 0 then [ '-' ] else []
    if e = 0 then String.mk (sgn ++ natToChars a)
    else String.mk (sgn ++ natToChars (a / 10 ^ e) ++ '.' :: padDigits e (a % 10 ^ e))
  else toString q.num ++ "/" ++ toString q.den

/-- JS string coercion of a number. -/
def jnumToString : JNum → String
  | .nan => "NaN"
  | .fin q => numToString q

/-- JS `String(value)` coercion. -/
def jvalToString : JVal → String
  | .undef => "undefined"
  | .null => "null"
  | .str s => s
  | .num n => jnumToString n

/-! ### `parseFloat` -/

def digitVal (c : Char) : Nat := c.toNat - 48

/-- Consume a maximal run of decimal digits; returns (value, digit count, rest). -/
def parseDigits : List Char → Nat → Nat → Nat × Nat × List Char
  | [], acc, cnt => (acc, cnt, [])
  | c :: cs, acc, cnt =>
    if c.isDigit then parseDigits cs (acc * 10 + digitVal c) (cnt + 1)
    else (acc, cnt, c :: cs)

/-- Model of JS `parseFloat` on a character list (decimal fragment: optional
whitespace, optional sign, digits, optional `.` and digits; longest prefix;
NaN when no digit is consumed).  The value `sign * (ip + fp / 10 ^ cnt)` is
assembled as a single `Rat.divInt`. -/
def parseFloatChars (l : List Char) : JNum :=
  let l1 := l.dropWhile Char.isWhitespace
  let sl : Int × List Char :=
    match l1 with
    | '-' :: t => (-1, t)
    | '+' :: t => (1, t)
    | _ => (1, l1)
  let ip := parseDigits sl.2 0 0
  let fp :=
    match ip.2.2 with
    | '.' :: t => parseDigits t 0 0
    | _ => ((0 : Nat), (0 : Nat), ([] : List Char))
  if ip.2.1 + fp.2.1 = 0 then JNum.nan
  else JNum.fin (Rat.divInt (sl.1 * (ip.1 * 10 ^ fp.2.1 + fp.1)) (10 ^ fp.2.1))

def parseFloat (s : String) : JNum := parseFloatChars s.data

/-- JS `parseFloat` applied to an arbitrary value: a number argument is
stringified and reparsed, which is the identity on finite numbers and maps
NaN back to NaN; other values are coerced to strings first. -/
def parseFloatVal : JVal → JNum
  | .num n => n
  | v => parseFloat (jvalToString v)

/-! ### The normalizer (source function `normalizeRangeSetting`) -/

/-- Source: `if (value === null || value === undefined || value === 'None' ||
value === 'null') return 'N/A'; return String(value).trim();` -/
def normalizeRangeSetting (v : JVal) : String :=
  if v = JVal.null ∨ v = JVal.undef ∨ v = JVal.str "None" ∨ v = JVal.str "null" then "N/A"
  else jsTrim (jvalToString v)

/-! ### Data model -/

/-- One row of the configuration table: the three `data-` attributes
(`data-test-value`, `data-range-setting`, `data-io-type`, all strings in the
generated table) and the current values of the three text inputs
(`.range-input`, `.reference-input`, `.tolerance-input`). -/
structure Row where
  testValue : String
  rangeSetting : String
  ioType : String
  rangeInput : String
  refInput : String
  tolInput : String
deriving DecidableEq

/-- A configuration record as built by `getConfigurations`. -/
structure ConfigRecord where
  test_value : JNum
  range_setting : String
  io_type : String
  range_input : String
  reference : ℚ
  tolerance : ℚ
deriving DecidableEq

/-- A record in the shape produced by `saveConfig`: `reference` and
`tolerance` stringified, `range_setting` mapped to `null` when it is the
`"N/A"` sentinel. -/
structure SavedRecord where
  test_value : JNum
  range_setting : JVal
  io_type : String
  range_input : String
  reference : String
  tolerance : String
deriving DecidableEq

/-- An external record as consumed by `applyConfig`: a loaded JSON document
may carry arbitrary values (or omit keys, giving `undefined`). -/
structure ExtRecord where
  test_value : JVal
  range_setting : JVal
  io_type : JVal
  range_input : JVal
  reference : JVal
  tolerance : JVal
deriving DecidableEq

/-- A loaded configuration document: `configurations := none` models a
document without a `configurations` key. -/
structure ConfigDoc where
  unit : JVal
  configurations : Option (List ExtRecord)

/-! ### Row extraction (source function `getConfigurations`) -/

/-- Source, per row: `parseFloat` the `data-` test value, read the raw range
setting and io type, trim the range input (empty falls back to `'N/A'` via
`||`), `parseFloat` reference and tolerance; throw on NaN reference or
tolerance, then throw on negative tolerance; push the record.  A `forEach`
body that throws aborts the whole extraction, so the result is modelled as
`Except` with the first error; `unit` stands for the global
`filesInfo.unit` used in the messages. -/
def getConfigurations (unit : String) : List Row → Except String (List ConfigRecord)
  | [] => Except.ok []
  | row :: rest =>
    let testValue := parseFloat row.testValue
    let rangeInput := jsTrim row.rangeInput
    let reference := parseFloat row.refInput
    let tolerance := parseFloat row.tolInput
    if reference.isNaN || tolerance.isNaN then
      Except.error ("Invalid values for test point " ++ jnumToString testValue ++ " " ++ unit)
    else if tolerance.toQ < 0 then
      Except.error ("Tolerance must be positive for test point " ++ jnumToString testValue
        ++ " " ++ unit)
    else
      match getConfigurations unit rest with
      | Except.ok cs =>
          Except.ok ({ test_value := testValue
                       range_setting := row.rangeSetting
                       io_type := row.ioType
                       range_input := if rangeInput = "" then "N/A" else rangeInput
                       reference := reference.toQ
                       tolerance := tolerance.toQ } :: cs)
      | Except.error e => Except.error e

/-! ### Save-direction serialization (from source function `saveConfig`) -/

/-- Source: `configs.map(c => ({ test_value: c.test_value, range_setting:
c.range_setting === 'N/A' ? null : c.range_setting, io_type: c.io_type,
range_input: c.range_input, reference: c.reference.toString(), tolerance:
c.tolerance.toString() }))`. -/
def serializeRecord (c : ConfigRecord) : SavedRecord :=
  { test_value := c.test_value
    range_setting := if c.range_setting = "N/A" then JVal.null else JVal.str c.range_setting
    io_type := c.io_type
    range_input := c.range_input
    reference := numToString c.reference
    tolerance := numToString c.tolerance }

/-- JSON round trip of a single value (stringify on save, parse on load):
`JSON.stringify` writes NaN as `null`; everything else in our value space is
preserved. -/
def jsonVal : JVal → JVal
  | .num .nan => .null
  | v => v

/-- A saved record as it arrives back at `applyConfig` after the JSON round
trip through the save file and the load endpoint. -/
def SavedRecord.toExt (sr : SavedRecord) : ExtRecord :=
  { test_value := jsonVal (JVal.num sr.test_value)
    range_setting := jsonVal sr.range_setting
    io_type := JVal.str sr.io_type
    range_input := JVal.str sr.range_input
    reference := JVal.str sr.reference
    tolerance := JVal.str sr.tolerance }

/-! ### The matcher/merger (source function `applyConfig`) -/

/-- Source, per (config, row) pair: `parseFloat` both test values, normalize
both range settings, compare io types with `===`; match iff
`Math.abs(rowTestValue - configTestValue) < 0.0001` and both other
components agree. -/
def matchesRow (config : ExtRecord) (row : Row) : Bool :=
  let configTestValue := parseFloatVal config.test_value
  let configRangeSetting := normalizeRangeSetting config.range_setting
  let rowTestValue := parseFloat row.testValue
  let rowRangeSetting := normalizeRangeSetting (JVal.str row.rangeSetting)
  let testValueMatch := JNum.ltB ((rowTestValue.sub configTestValue).jabs)
    (JNum.fin (Rat.divInt 1 10000))
  let rangeMatch := rowRangeSetting == configRangeSetting
  let ioTypeMatch := jsStrictEq (JVal.str row.ioType) config.io_type
  testValueMatch && rangeMatch && ioTypeMatch

/-- Assignment to `HTMLInputElement.value`: the IDL attribute is declared
`[LegacyNullToEmptyString] DOMString`, so assigning null writes the empty
string; every other value is coerced to a string as usual (undefined, if it
were ever written, would coerce to the string `"undefined"`). -/
def inputValueSet : JVal → String
  | .null => ""
  | v => jvalToString v

/-- Source, on a matched row: each editable input is overwritten exactly when
the external record's field is not `undefined` (assignment to `.value`
coerces the value to a string, null becoming the empty string per
`[LegacyNullToEmptyString]`).  The `data-` attributes are never written. -/
def applyToRow (config : ExtRecord) (row : Row) : Row :=
  { row with
    rangeInput := if config.range_input = JVal.undef then row.rangeInput
      else inputValueSet config.range_input
    refInput := if config.reference = JVal.undef then row.refInput
      else inputValueSet config.reference
    tolInput := if config.tolerance = JVal.undef then row.tolInput
      else inputValueSet config.tolerance }

/-- Inner `rows.forEach` of `applyConfig` for one external record: update
every matching row and count the matches. -/
def mergeOne (config : ExtRecord) : List Row → List Row × Nat
  | [] => ([], 0)
  | r :: rs =>
    let rest := mergeOne config rs
    if matchesRow config r then (applyToRow config r :: rest.1, rest.2 + 1)
    else (r :: rest.1, rest.2)

/-- Outer `configurations.forEach` of `applyConfig`: thread the row state
through every external record, accumulating `loadedCount`. -/
def applyConfigs : List ExtRecord → List Row → List Row × Nat
  | [], rows => (rows, 0)
  | c :: cs, rows =>
    let first := mergeOne c rows
    let rest := applyConfigs cs first.1
    (rest.1, first.2 + rest.2)

/-- Source: `const configurations = configData.configurations || [];` then
the nested `forEach` merge.  (The unit-mismatch confirm dialog that precedes
the merge is outside the merge itself; this models the merge pass.) -/
def applyConfig (configData : ConfigDoc) (rows : List Row) : List Row × Nat :=
  applyConfigs (configData.configurations.getD []) rows

/-- The full save/load round trip of the spec's round-trip property: extract
records from the rows, serialize them as `saveConfig` does, push them through
the JSON round trip, and merge the result back onto the same row set.
A row set that fails extraction is returned unchanged. -/
def roundTripMerge (unit : String) (rows : List Row) : List Row × Nat :=
  match getConfigurations unit rows with
  | Except.error _ => (rows, 0)
  | Except.ok cs =>
      applyConfig
        { unit := JVal.str unit
          configurations := some (cs.map (fun c => (serializeRecord c).toExt)) } rows

/-! ### Specification-side helper predicates -/

/-- A row passes `getConfigurations`' per-row validation: reference and
tolerance parse, and tolerance is not negative. -/
def rowValid (r : Row) : Bool :=
  !((parseFloat r.refInput).isNaN || (parseFloat r.tolInput).isNaN)
  && !(decide ((parseFloat r.tolInput).toQ < 0))

/-- The error message `getConfigurations` produces for an invalid row. -/
def errMsgFor (unit : String) (r : Row) : String :=
  if (parseFloat r.refInput).isNaN || (parseFloat r.tolInput).isNaN then
    "Invalid values for test point " ++ jnumToString (parseFloat r.testValue) ++ " " ++ unit
  else
    "Tolerance must be positive for test point " ++ jnumToString (parseFloat r.testValue)
      ++ " " ++ unit

/-- The record `getConfigurations` builds from a valid row. -/
def recordOf (r : Row) : ConfigRecord :=
  { test_value := parseFloat r.testValue
    range_setting := r.rangeSetting
    io_type := r.ioType
    range_input := if jsTrim r.rangeInput = "" then "N/A" else jsTrim r.rangeInput
    reference := (parseFloat r.refInput).toQ
    tolerance := (parseFloat r.tolInput).toQ }

/-- The external record a row turns into after extraction, serialization and
the JSON round trip. -/
def extOf (r : Row) : ExtRecord := (serializeRecord (recordOf r)).toExt

/-- Two rows carry colliding match keys: parsed test values within `1e-4`,
equal normalized range settings, equal io types. -/
def collide (a b : Row) : Bool :=
  JNum.ltB (((parseFloat b.testValue).sub (parseFloat a.testValue)).jabs)
    (JNum.fin (Rat.divInt 1 10000))
  && (normalizeRangeSetting (JVal.str b.rangeSetting)
      == normalizeRangeSetting (JVal.str a.rangeSetting))
  && (b.ioType == a.ioType)

/-- A row whose editable strings are in canonical form: range input trimmed
and non-empty, reference and tolerance inputs equal to the canonical decimal
rendering of their parsed values. -/
def canonicalRow (r : Row) : Bool :=
  (jsTrim r.rangeInput == r.rangeInput) && !(r.rangeInput == "")
  && (match parseFloat r.refInput with
      | .nan => true
      | .fin q => r.refInput == numToString q)
  && (match parseFloat r.tolInput with
      | .nan => true
      | .fin q => r.tolInput == numToString q)

/-- One (config, row) step of the merge, as a row transformer. -/
def stepRow (c : ExtRecord) (r : Row) : Row :=
  if matchesRow c r then applyToRow c r else r

/-! ### Concrete instances used by the concrete checks below -/

/-- Two rows with identical match keys but different reference inputs. -/
def c6rowA : Row :=
  { testValue := "10", rangeSetting := "R", ioType := "V", rangeInput := "X"
    refInput := "1", tolInput := "0" }

def c6rowB : Row :=
  { testValue := "10", rangeSetting := "R", ioType := "V", rangeInput := "X"
    refInput := "2", tolInput := "0" }

/-- A valid row whose editable strings are all canonical. -/
def c6wrow : Row :=
  { testValue := "10", rangeSetting := "N/A", ioType := "V", rangeInput := "N/A"
    refInput := "5", tolInput := "0.25" }

/-- The record `c6wrow` extracts to. -/
def c6wrec : ConfigRecord :=
  { test_value := JNum.fin 10, range_setting := "N/A", io_type := "V", range_input := "N/A"
    reference := 5, tolerance := Rat.divInt 1 4 }

def c2row : Row :=
  { testValue := "10", rangeSetting := "R", ioType := "V", rangeInput := "x"
    refInput := "1", tolInput := "1" }

def c2ext : ExtRecord :=
  { test_value := JVal.str "10", range_setting := JVal.str "R", io_type := JVal.str "V"
    range_input := JVal.str "y", reference := JVal.str "2", tolerance := JVal.str "0.5" }

def c4rowTol : Row :=
  { testValue := "10", rangeSetting := "R", ioType := "V", rangeInput := "x"
    refInput := "1", tolInput := "-1" }

def c4rowRef : Row :=
  { testValue := "10", rangeSetting := "R", ioType := "V", rangeInput := "x"
    refInput := "abc", tolInput := "1" }

def c1ext : ExtRecord :=
  { test_value := JVal.num (JNum.fin 10), range_setting := JVal.null, io_type := JVal.str "V"
    range_input := JVal.undef, reference := JVal.undef, tolerance := JVal.undef }

def c1row : Row :=
  { testValue := "10.00005", rangeSetting := "N/A", ioType := "V", rangeInput := ""
    refInput := "", tolInput := "" }

def c8row : Row :=
  { testValue := "10", rangeSetting := "R", ioType := "V", rangeInput := "x"
    refInput := "1", tolInput := "1" }

/-- An external record matching no current row (io type differs). -/
def c8ext : ExtRecord :=
  { test_value := JVal.str "10", range_setting := JVal.str "R", io_type := JVal.str "A"
    range_input := JVal.str "y", reference := JVal.str "2", tolerance := JVal.str "1" }

def c9row : Row :=
  { testValue := "10", rangeSetting := "R", ioType := "V", rangeInput := "x"
    refInput := "1", tolInput := "1" }

/-- An external record with `range_input` absent, `reference` null and
`tolerance` an empty string. -/
def c9ext : ExtRecord :=
  { test_value := JVal.str "10", range_setting := JVal.str "R", io_type := JVal.str "V"
    range_input := JVal.undef, reference := JVal.null, tolerance := JVal.str "" }

/-- A valid row whose test value does not parse as a number. -/
def c10row : Row :=
  { testValue := "abc", rangeSetting := "R", ioType := "V", rangeInput := "x"
    refInput := "1", tolInput := "2" }

/-- Decidable equality for `Except`, for evaluating extraction results. -/
instance {ε α : Type} [DecidableEq ε] [DecidableEq α] : DecidableEq (Except ε α) := fun a b =>
  match a, b with
  | .ok x, .ok y =>
    if h : x = y then .isTrue (by rw [h]) else .isFalse (by simp [h])
  | .error x, .error y =>
    if h : x = y then .isTrue (by rw [h]) else .isFalse (by simp [h])
  | .ok _, .error _ => .isFalse (by simp)
  | .error _, .ok _ => .isFalse (by simp)

theorem qSub_eq (a b : ℚ) : qSub a b = a - b := by
  unfold qSub
  have ha : ((a.den : ℚ)) ≠ 0 := by
    exact_mod_cast a.den_ne_zero
  have hb : ((b.den : ℚ)) ≠ 0 := by
    exact_mod_cast b.den_ne_zero
  rw [Rat.divInt_eq_div, eq_comm]
  conv_lhs => rw [← Rat.num_div_den a, ← Rat.num_div_den b]
  rw [div_sub_div _ _ ha hb]
  push_cast
  ring_nf

theorem qAbs_eq (a : ℚ) : qAbs a = |a| := by
  unfold qAbs
  have ha : ((0 : ℚ)) ≤ (a.den : ℚ) := by positivity
  rw [Rat.divInt_eq_div, eq_comm]
  conv_lhs => rw [← Rat.num_div_den a]
  rw [abs_div, abs_of_nonneg ha]
  push_cast
  rfl

theorem divInt_one_tenThousand : Rat.divInt 1 10000 = 1 / 10000 := by
  rw [Rat.divInt_eq_div]
  norm_num

/-! ### Structure of the merge -/

theorem applyToRow_testValue (c : ExtRecord) (r : Row) :
    (applyToRow c r).testValue = r.testValue := rfl

theorem applyToRow_rangeSetting (c : ExtRecord) (r : Row) :
    (applyToRow c r).rangeSetting = r.rangeSetting := rfl

theorem applyToRow_ioType (c : ExtRecord) (r : Row) :
    (applyToRow c r).ioType = r.ioType := rfl

theorem matchesRow_congr (c : ExtRecord) (r1 r2 : Row)
    (h1 : r1.testValue = r2.testValue) (h2 : r1.rangeSetting = r2.rangeSetting)
    (h3 : r1.ioType = r2.ioType) : matchesRow c r1 = matchesRow c r2 := by
  unfold matchesRow
  rw [h1, h2, h3]

theorem matchesRow_applyToRow (c c2 : ExtRecord) (r : Row) :
    matchesRow c (applyToRow c2 r) = matchesRow c r :=
  matchesRow_congr c _ r rfl rfl rfl

theorem matchesRow_stepRow (c c2 : ExtRecord) (r : Row) :
    matchesRow c (stepRow c2 r) = matchesRow c r := by
  unfold stepRow
  by_cases h : matchesRow c2 r
  · rw [if_pos h, matchesRow_applyToRow]
  · rw [if_neg h]

theorem stepRow_testValue (c : ExtRecord) (r : Row) :
    (stepRow c r).testValue = r.testValue := by
  unfold stepRow
  by_cases h : matchesRow c r
  · rw [if_pos h]; rfl
  · rw [if_neg h]

theorem stepRow_rangeSetting (c : ExtRecord) (r : Row) :
    (stepRow c r).rangeSetting = r.rangeSetting := by
  unfold stepRow
  by_cases h : matchesRow c r
  · rw [if_pos h]; rfl
  · rw [if_neg h]

theorem stepRow_ioType (c : ExtRecord) (r : Row) :
    (stepRow c r).ioType = r.ioType := by
  unfold stepRow
  by_cases h : matchesRow c r
  · rw [if_pos h]; rfl
  · rw [if_neg h]

theorem mergeOne_eq (c : ExtRecord) (rows : List Row) :
    mergeOne c rows = (rows.map (stepRow c), rows.countP (fun r => matchesRow c r)) := by
  induction rows with
  | nil => rfl
  | cons r rs ih =>
    show (if matchesRow c r then ((mergeOne c rs).1.cons (applyToRow c r), (mergeOne c rs).2 + 1)
      else ((mergeOne c rs).1.cons r, (mergeOne c rs).2)) = _
    rw [ih]
    by_cases h : matchesRow c r
    · simp [h, stepRow, List.countP_cons]
    · simp [h, stepRow, List.countP_cons]

theorem applyConfigs_fst (cs : List ExtRecord) (rows : List Row) :
    (applyConfigs cs rows).1 = rows.map (fun r => cs.foldl (fun r c => stepRow c r) r) := by
  induction cs generalizing rows with
  | nil => simp [applyConfigs]
  | cons c cs ih =>
    show (applyConfigs cs (mergeOne c rows).1).1 = _
    rw [mergeOne_eq, ih, List.map_map]
    rfl

theorem applyConfigs_snd (cs : List ExtRecord) (rows : List Row) :
    (applyConfigs cs rows).2
      = (cs.map (fun c => rows.countP (fun r => matchesRow c r))).sum := by
  induction cs generalizing rows with
  | nil => rfl
  | cons c cs ih =>
    have hcount : ∀ c2 : ExtRecord,
        List.countP (fun r => matchesRow c2 r) (rows.map (stepRow c))
          = List.countP (fun r => matchesRow c2 r) rows := by
      intro c2
      rw [List.countP_map]
      apply List.countP_congr
      intro r _
      show matchesRow c2 (stepRow c r) = true ↔ matchesRow c2 r = true
      rw [matchesRow_stepRow]
    show (mergeOne c rows).2 + (applyConfigs cs (mergeOne c rows).1).2 = _
    rw [mergeOne_eq]
    show rows.countP (fun r => matchesRow c r) + (applyConfigs cs (rows.map (stepRow c))).2 = _
    rw [ih, List.map_cons, List.sum_cons]
    congr 1
    congr 1
    apply List.map_congr_left
    intro c2 _
    exact hcount c2

theorem foldl_stepRow_id (cs : List ExtRecord) (r : Row)
    (h : ∀ c ∈ cs, matchesRow c r = true → applyToRow c r = r) :
    cs.foldl (fun r c => stepRow c r) r = r := by
  induction cs with
  | nil => rfl
  | cons c cs ih =>
    have hstep : stepRow c r = r := by
      unfold stepRow
      by_cases hm : matchesRow c r
      · rw [if_pos hm]
        exact h c (List.mem_cons_self c cs) hm
      · rw [if_neg hm]
    show cs.foldl (fun r c => stepRow c r) (stepRow c r) = r
    rw [hstep]
    exact ih (fun c2 hc2 => h c2 (List.mem_cons_of_mem c hc2))

theorem foldl_stepRow_testValue (cs : List ExtRecord) (r : Row) :
    (cs.foldl (fun r c => stepRow c r) r).testValue = r.testValue := by
  induction cs generalizing r with
  | nil => rfl
  | cons c cs ih =>
    show (cs.foldl (fun r c => stepRow c r) (stepRow c r)).testValue = _
    rw [ih, stepRow_testValue]

theorem foldl_stepRow_rangeSetting (cs : List ExtRecord) (r : Row) :
    (cs.foldl (fun r c => stepRow c r) r).rangeSetting = r.rangeSetting := by
  induction cs generalizing r with
  | nil => rfl
  | cons c cs ih =>
    show (cs.foldl (fun r c => stepRow c r) (stepRow c r)).rangeSetting = _
    rw [ih, stepRow_rangeSetting]

theorem foldl_stepRow_ioType (cs : List ExtRecord) (r : Row) :
    (cs.foldl (fun r c => stepRow c r) r).ioType = r.ioType := by
  induction cs generalizing r with
  | nil => rfl
  | cons c cs ih =>
    show (cs.foldl (fun r c => stepRow c r) (stepRow c r)).ioType = _
    rw [ih, stepRow_ioType]

theorem matchesRow_foldl_stepRow (c : ExtRecord) (cs : List ExtRecord) (r : Row) :
    matchesRow c (cs.foldl (fun r c => stepRow c r) r) = matchesRow c r :=
  matchesRow_congr c _ r (foldl_stepRow_testValue cs r) (foldl_stepRow_rangeSetting cs r)
    (foldl_stepRow_ioType cs r)

/-! ### Structure of the extraction -/

theorem getConfigurations_ok_of_valid (unit : String) (rows : List Row)
    (h : ∀ r ∈ rows, rowValid r = true) :
    getConfigurations unit rows = Except.ok (rows.map recordOf) := by
  induction rows with
  | nil => rfl
  | cons r rs ih =>
    have hr : rowValid r = true := h r (List.mem_cons_self r rs)
    unfold rowValid at hr
    rw [Bool.and_eq_true, Bool.not_eq_true', Bool.not_eq_true'] at hr
    have c1 : ¬ (((parseFloat r.refInput).isNaN || (parseFloat r.tolInput).isNaN) = true) := by
      rw [hr.1]
      exact Bool.false_ne_true
    have c2 : ¬ ((parseFloat r.tolInput).toQ < 0) := of_decide_eq_false hr.2
    have ihh := ih (fun r2 hr2 => h r2 (List.mem_cons_of_mem r hr2))
    simp only [getConfigurations, if_neg c1, if_neg c2, ihh]
    rfl

theorem getConfigurations_error_first (unit : String) (rows : List Row)
    (h : ¬ ∀ r ∈ rows, rowValid r = true) :
    ∃ r ∈ rows, rowValid r = false
      ∧ getConfigurations unit rows = Except.error (errMsgFor unit r) := by
  induction rows with
  | nil =>
    exact absurd (by intro r hr; cases hr) h
  | cons r rs ih =>
    by_cases hr : rowValid r = true
    · have hrv := hr
      unfold rowValid at hrv
      rw [Bool.and_eq_true, Bool.not_eq_true', Bool.not_eq_true'] at hrv
      have c1 : ¬ (((parseFloat r.refInput).isNaN || (parseFloat r.tolInput).isNaN) = true) := by
        rw [hrv.1]
        exact Bool.false_ne_true
      have c2 : ¬ ((parseFloat r.tolInput).toQ < 0) := of_decide_eq_false hrv.2
      have htail : ¬ ∀ r2 ∈ rs, rowValid r2 = true := by
        intro hall
        apply h
        intro r2 hr2
        rcases List.mem_cons.mp hr2 with h1 | h2
        · rw [h1]; exact hr
        · exact hall r2 h2
      obtain ⟨r2, hmem, hinv, herr⟩ := ih htail
      refine ⟨r2, List.mem_cons_of_mem r hmem, hinv, ?_⟩
      simp only [getConfigurations, if_neg c1, if_neg c2, herr]
    · have hrf : rowValid r = false := by
        revert hr
        cases rowValid r <;> simp
      refine ⟨r, List.mem_cons_self r rs, hrf, ?_⟩
      by_cases hnan : ((parseFloat r.refInput).isNaN || (parseFloat r.tolInput).isNaN) = true
      · simp only [getConfigurations, if_pos hnan, errMsgFor, if_pos hnan]
      · have hnan' : ((parseFloat r.refInput).isNaN || (parseFloat r.tolInput).isNaN) = false := by
          revert hnan
          cases ((parseFloat r.refInput).isNaN || (parseFloat r.tolInput).isNaN) <;> simp
        have hneg : (parseFloat r.tolInput).toQ < 0 := by
          unfold rowValid at hrf
          rw [hnan'] at hrf
          simp only [Bool.not_false, Bool.true_and, Bool.not_eq_false'] at hrf
          exact of_decide_eq_true hrf
        simp only [getConfigurations, if_neg hnan, if_pos hneg, errMsgFor, if_neg hnan]

theorem getConfigurations_valid_of_ok (unit : String) (rows : List Row)
    (cs : List ConfigRecord) (hok : getConfigurations unit rows = Except.ok cs) :
    ∀ r ∈ rows, rowValid r = true := by
  by_contra hno
  obtain ⟨r, _, _, herr⟩ := getConfigurations_error_first unit rows hno
  rw [herr] at hok
  cases hok

theorem getConfigurations_ok_shape (unit : String) (rows : List Row)
    (cs : List ConfigRecord) (hok : getConfigurations unit rows = Except.ok cs) :
    cs = rows.map recordOf := by
  have h := getConfigurations_ok_of_valid unit rows
    (getConfigurations_valid_of_ok unit rows cs hok)
  rw [hok] at h
  injection h with h2

/-! ### The round trip of a row through save and load -/

theorem parseFloatVal_jsonVal_num : ∀ n : JNum, parseFloatVal (jsonVal (JVal.num n)) = n
  | .fin _ => rfl
  | .nan => by decide

theorem normalize_serialized (s : String) :
    normalizeRangeSetting (jsonVal (if s = "N/A" then JVal.null else JVal.str s))
      = normalizeRangeSetting (JVal.str s) := by
  by_cases h : s = "N/A"
  · rw [if_pos h, h]
    decide
  · rw [if_neg h]
    rfl

theorem matchesRow_extOf (a b : Row) : matchesRow (extOf a) b = collide a b := by
  unfold matchesRow collide extOf
  show (JNum.ltB ((JNum.sub (parseFloat b.testValue)
      (parseFloatVal (jsonVal (JVal.num (parseFloat a.testValue))))).jabs)
        (JNum.fin (Rat.divInt 1 10000))
      && (normalizeRangeSetting (JVal.str b.rangeSetting)
        == normalizeRangeSetting (jsonVal (if a.rangeSetting = "N/A" then JVal.null
            else JVal.str a.rangeSetting)))
      && jsStrictEq (JVal.str b.ioType) (JVal.str a.ioType)) = _
  rw [parseFloatVal_jsonVal_num, normalize_serialized]
  rfl

theorem beq_comm_str (s t : String) : (s == t) = (t == s) := by
  by_cases h : s = t
  · rw [h]
  · have h2 : ¬ t = s := fun e => h e.symm
    rw [beq_eq_false_iff_ne.mpr h, beq_eq_false_iff_ne.mpr h2]

theorem jabs_sub_comm : ∀ x y : JNum, ((x.sub y).jabs) = ((y.sub x).jabs)
  | .nan, .nan => rfl
  | .nan, .fin _ => rfl
  | .fin _, .nan => rfl
  | .fin a, .fin b => by
    show JNum.fin (qAbs (qSub a b)) = JNum.fin (qAbs (qSub b a))
    rw [qAbs_eq, qAbs_eq, qSub_eq, qSub_eq, abs_sub_comm]

theorem collide_symm (a b : Row) : collide a b = collide b a := by
  unfold collide
  rw [jabs_sub_comm (parseFloat b.testValue) (parseFloat a.testValue),
    beq_comm_str (normalizeRangeSetting (JVal.str b.rangeSetting))
      (normalizeRangeSetting (JVal.str a.rangeSetting)),
    beq_comm_str b.ioType a.ioType]

theorem collide_unique (rows : List Row)
    (hpair : List.Pairwise (fun a b => collide a b = false) rows)
    (a b : Row) (ha : a ∈ rows) (hb : b ∈ rows) (hc : collide a b = true) : a = b := by
  by_contra hne
  have hsym : Symmetric (fun a b : Row => collide a b = false) := by
    intro x y hxy
    rw [collide_symm]
    exact hxy
  have hfalse := List.Pairwise.forall hsym hpair ha hb hne
  rw [hfalse] at hc
  cases hc

theorem applyToRow_extOf_self (r : Row) (hv : rowValid r = true) (hc : canonicalRow r = true) :
    applyToRow (extOf r) r = r := by
  unfold canonicalRow at hc
  simp only [Bool.and_eq_true] at hc
  obtain ⟨⟨⟨hA, hB⟩, hC⟩, hD⟩ := hc
  unfold rowValid at hv
  rw [Bool.and_eq_true, Bool.not_eq_true', Bool.not_eq_true'] at hv
  have hrefN : (parseFloat r.refInput).isNaN = false := by
    rcases Bool.or_eq_false_iff.mp hv.1 with ⟨h1, _⟩
    exact h1
  have htolN : (parseFloat r.tolInput).isNaN = false := by
    rcases Bool.or_eq_false_iff.mp hv.1 with ⟨_, h2⟩
    exact h2
  have h1 : (recordOf r).range_input = r.rangeInput := by
    have htrim : jsTrim r.rangeInput = r.rangeInput := eq_of_beq hA
    have hne : ¬ (jsTrim r.rangeInput = "") := by
      rw [htrim]
      intro e
      rw [e] at hB
      simp at hB
    show (if jsTrim r.rangeInput = "" then "N/A" else jsTrim r.rangeInput) = r.rangeInput
    rw [if_neg hne, htrim]
  have h2 : numToString (recordOf r).reference = r.refInput := by
    cases href : parseFloat r.refInput with
    | nan => rw [href] at hrefN; cases hrefN
    | fin q =>
      rw [href] at hC
      show numToString (parseFloat r.refInput).toQ = r.refInput
      rw [href]
      exact (eq_of_beq hC).symm
  have h3 : numToString (recordOf r).tolerance = r.tolInput := by
    cases htol : parseFloat r.tolInput with
    | nan => rw [htol] at htolN; cases htolN
    | fin q =>
      rw [htol] at hD
      show numToString (parseFloat r.tolInput).toQ = r.tolInput
      rw [htol]
      exact (eq_of_beq hD).symm
  have heq : applyToRow (extOf r) r
      = { r with
          rangeInput := (recordOf r).range_input
          refInput := numToString (recordOf r).reference
          tolInput := numToString (recordOf r).tolerance } := rfl
  rw [heq, h1, h2, h3]

theorem stepRow_eq_of_no_match (c : ExtRecord) (r : Row) (h : matchesRow c r = false) :
    stepRow c r = r := by
  unfold stepRow
  rw [if_neg (by rw [h]; exact Bool.false_ne_true)]

theorem jsStrictEq_str_iff (s : String) (v : JVal) :
    jsStrictEq (JVal.str s) v = true ↔ JVal.str s = v := by
  cases v with
  | str t =>
    show (s == t) = true ↔ _
    rw [beq_iff_eq]
    constructor
    · intro h
      rw [h]
    · intro h
      injection h
  | undef =>
    constructor
    · intro h
      cases h
    · intro h
      cases h
  | null =>
    constructor
    · intro h
      cases h
    · intro h
      cases h
  | num n =>
    cases n with
    | nan =>
      constructor
      · intro h
        cases h
      · intro h
        cases h
    | fin q =>
      constructor
      · intro h
        cases h
      · intro h
        cases h

/-! ### The claims -/

/-- C1: the merge treats a current row R as a match for an external record E
iff all three hold: the absolute difference of the parsed test values is
strictly below `1e-4`, the normalized range settings agree, and the io types
agree under exact, case-sensitive strict equality (stated for parsed,
non-NaN test values; `matchesRow` is the predicate the merge applies to
every (E, R) pair). -/
theorem claim1_match_key_iff (E : ExtRecord) (R : Row) (rv ev : ℚ)
    (h1 : parseFloat R.testValue = JNum.fin rv)
    (h2 : parseFloatVal E.test_value = JNum.fin ev) :
    matchesRow E R = true
      ↔ (|rv - ev| < 1 / 10000
        ∧ normalizeRangeSetting (JVal.str R.rangeSetting) = normalizeRangeSetting E.range_setting
        ∧ JVal.str R.ioType = E.io_type) := by
  simp only [matchesRow]
  rw [h1, h2]
  rw [Bool.and_eq_true, Bool.and_eq_true]
  have e1 : JNum.ltB ((JNum.sub (JNum.fin rv) (JNum.fin ev)).jabs)
      (JNum.fin (Rat.divInt 1 10000)) = true ↔ |rv - ev| < 1 / 10000 := by
    show decide (qAbs (qSub rv ev) < Rat.divInt 1 10000) = true ↔ _
    rw [decide_eq_true_eq, qAbs_eq, qSub_eq, divInt_one_tenThousand]
  have e2 : (normalizeRangeSetting (JVal.str R.rangeSetting)
      == normalizeRangeSetting E.range_setting) = true
      ↔ normalizeRangeSetting (JVal.str R.rangeSetting)
        = normalizeRangeSetting E.range_setting := beq_iff_eq
  have e3 := jsStrictEq_str_iff R.ioType E.io_type
  rw [e1, e2, e3]
  exact and_assoc

/-- C1 witness: a row with test value `10.00005` against an external record
with numeric test value `10`, matching range setting and io type. -/
theorem claim1_witness :
    parseFloat c1row.testValue = JNum.fin (Rat.divInt 200001 20000)
    ∧ parseFloatVal c1ext.test_value = JNum.fin 10
    ∧ (matchesRow c1ext c1row = true
      ↔ (|Rat.divInt 200001 20000 - 10| < 1 / 10000
        ∧ normalizeRangeSetting (JVal.str c1row.rangeSetting)
          = normalizeRangeSetting c1ext.range_setting
        ∧ JVal.str c1row.ioType = c1ext.io_type)) :=
  ⟨by decide, by decide, claim1_match_key_iff c1ext c1row _ _ (by decide) (by decide)⟩

/-- C2: the merge applies each external record to every matching row, and
the final count is the total number of (E, R) match pairs — the sum over
external records of the number of matching rows; in particular one record
over two duplicate-key rows counts 2. -/
theorem claim2_applied_count :
    (∀ (cs : List ExtRecord) (rows : List Row),
      (applyConfigs cs rows).2
          = (cs.map (fun c => rows.countP (fun r => matchesRow c r))).sum
      ∧ (applyConfigs cs rows).1
          = rows.map (fun r => cs.foldl (fun r c => stepRow c r) r))
    ∧ (applyConfigs [c2ext] [c2row, c2row]).2 = 2 :=
  ⟨fun cs rows => ⟨applyConfigs_snd cs rows, applyConfigs_fst cs rows⟩, by decide⟩

/-- C3: the merge never changes `testValue`, `rangeSetting` or `ioType` of
any row, and a row matching no external record is returned entirely
unchanged. -/
theorem claim3_merge_frame (cs : List ExtRecord) (rows : List Row) :
    List.Forall₂ (fun r rr =>
        rr.testValue = r.testValue ∧ rr.rangeSetting = r.rangeSetting ∧ rr.ioType = r.ioType
        ∧ ((∀ c ∈ cs, matchesRow c r = false) → rr = r))
      rows (applyConfigs cs rows).1 := by
  rw [applyConfigs_fst, List.forall₂_map_right_iff, List.forall₂_same]
  intro r hr
  refine ⟨foldl_stepRow_testValue cs r, foldl_stepRow_rangeSetting cs r,
    foldl_stepRow_ioType cs r, ?_⟩
  intro hnone
  apply foldl_stepRow_id
  intro c hc hm
  rw [hnone c hc] at hm
  cases hm

/-- C3 witness: the frame property at one external record over one
non-matching row, whose preservation is checked concretely. -/
theorem claim3_witness :
    List.Forall₂ (fun r rr =>
        rr.testValue = r.testValue ∧ rr.rangeSetting = r.rangeSetting ∧ rr.ioType = r.ioType
        ∧ ((∀ c ∈ [c8ext], matchesRow c r = false) → rr = r))
      [c8row] (applyConfigs [c8ext] [c8row]).1
    ∧ (applyConfigs [c8ext] [c8row]).1 = [c8row] :=
  ⟨claim3_merge_frame [c8ext] [c8row], by decide⟩

/-- C4: extraction is all-or-nothing — it returns a full record list iff
every row passes validation, and otherwise fails with the validation error
built from an offending row (naming its test value and the unit). -/
theorem claim4_extraction_all_or_nothing (unit : String) (rows : List Row) :
    ((∃ cs, getConfigurations unit rows = Except.ok cs) ↔ ∀ r ∈ rows, rowValid r = true)
    ∧ ((¬ ∀ r ∈ rows, rowValid r = true) →
        ∃ r ∈ rows, rowValid r = false
          ∧ getConfigurations unit rows = Except.error (errMsgFor unit r)) := by
  constructor
  · constructor
    · rintro ⟨cs, hok⟩
      exact getConfigurations_valid_of_ok unit rows cs hok
    · intro h
      exact ⟨rows.map recordOf, getConfigurations_ok_of_valid unit rows h⟩
  · exact getConfigurations_error_first unit rows

/-- C4 witness: a row with `tolerance = "-1"` and a row with
`reference = "abc"` each make extraction fail with the matching message. -/
theorem claim4_witness :
    (¬ ∀ r ∈ [c4rowTol], rowValid r = true)
    ∧ (∃ r ∈ [c4rowTol], rowValid r = false
        ∧ getConfigurations "mV" [c4rowTol] = Except.error (errMsgFor "mV" r))
    ∧ (¬ ∀ r ∈ [c4rowRef], rowValid r = true)
    ∧ (∃ r ∈ [c4rowRef], rowValid r = false
        ∧ getConfigurations "mV" [c4rowRef] = Except.error (errMsgFor "mV" r))
    ∧ errMsgFor "mV" c4rowTol = "Tolerance must be positive for test point 10 mV"
    ∧ errMsgFor "mV" c4rowRef = "Invalid values for test point 10 mV" :=
  ⟨by decide, (claim4_extraction_all_or_nothing "mV" [c4rowTol]).2 (by decide),
    by decide, (claim4_extraction_all_or_nothing "mV" [c4rowRef]).2 (by decide),
    by decide, by decide⟩

/-- C5: the normalizer sends null, undefined, `"None"` and `"null"` to the
sentinel `"N/A"`, and any other value to its string coercion trimmed; in
particular `normalize("  Range1  ") = "Range1"`.  (It is a total function by
construction.) -/
theorem claim5_normalizer :
    normalizeRangeSetting JVal.null = "N/A"
    ∧ normalizeRangeSetting JVal.undef = "N/A"
    ∧ normalizeRangeSetting (JVal.str "None") = "N/A"
    ∧ normalizeRangeSetting (JVal.str "null") = "N/A"
    ∧ (∀ v : JVal, v ≠ JVal.null → v ≠ JVal.undef → v ≠ JVal.str "None" →
        v ≠ JVal.str "null" → normalizeRangeSetting v = jsTrim (jvalToString v))
    ∧ normalizeRangeSetting (JVal.str "  Range1  ") = "Range1" := by
  refine ⟨by decide, by decide, by decide, by decide, ?_, by decide⟩
  intro v h1 h2 h3 h4
  unfold normalizeRangeSetting
  rw [if_neg]
  exact fun hor => hor.elim h1 (fun hor2 => hor2.elim h2 (fun hor3 => hor3.elim h3 h4))

/-- C5 witness: the generic branch applied to the string
`"  Range1  "`. -/
theorem claim5_witness :
    (JVal.str "  Range1  " ≠ JVal.null)
    ∧ (JVal.str "  Range1  " ≠ JVal.undef)
    ∧ (JVal.str "  Range1  " ≠ JVal.str "None")
    ∧ (JVal.str "  Range1  " ≠ JVal.str "null")
    ∧ normalizeRangeSetting (JVal.str "  Range1  ")
      = jsTrim (jvalToString (JVal.str "  Range1  ")) :=
  ⟨by decide, by decide, by decide, by decide,
    claim5_normalizer.2.2.2.2.1 (JVal.str "  Range1  ")
      (by decide) (by decide) (by decide) (by decide)⟩

/-- C6 counterexample: the round-trip claim fails as stated.  The row set
`[c6rowA, c6rowB]` is valid (extraction succeeds), yet extracting, saving and
merging back onto the identical row set overwrites both rows' reference
inputs with the last duplicate-key record's value, so the original field
values are not reproduced. -/
theorem claim6_roundtrip_counterexample :
    (getConfigurations "mV" [c6rowA, c6rowB]).isOk = true
    ∧ (roundTripMerge "mV" [c6rowA, c6rowB]).1 ≠ [c6rowA, c6rowB]
    ∧ (roundTripMerge "mV" [c6rowA, c6rowB]).1.map Row.refInput ≠ [c6rowA, c6rowB].map Row.refInput :=
  ⟨by decide, by decide, by decide⟩

/-- C6 (amended): for a valid row set in which no two distinct rows carry
colliding match keys and every row's editable strings are canonical
(range input trimmed and non-empty; reference and tolerance inputs equal to
the canonical decimal rendering of their parsed values), extracting,
serializing in the save format, reloading and merging onto the identical row
set reproduces every row exactly. -/
theorem claim6_roundtrip_amended (unit : String) (rows : List Row) (cs : List ConfigRecord)
    (hex : getConfigurations unit rows = Except.ok cs)
    (hpair : List.Pairwise (fun a b => collide a b = false) rows)
    (hcanon : ∀ r ∈ rows, canonicalRow r = true) :
    (roundTripMerge unit rows).1 = rows := by
  have hvalid := getConfigurations_valid_of_ok unit rows cs hex
  have hshape := getConfigurations_ok_shape unit rows cs hex
  unfold roundTripMerge
  rw [hex]
  show (applyConfigs (cs.map fun c => (serializeRecord c).toExt) rows).1 = rows
  rw [hshape, List.map_map]
  show (applyConfigs (rows.map extOf) rows).1 = rows
  rw [applyConfigs_fst]
  have hid : ∀ r ∈ rows, (rows.map extOf).foldl (fun r c => stepRow c r) r = r := by
    intro r hr
    apply foldl_stepRow_id
    intro c hcmem hcm
    obtain ⟨r2, hr2, rfl⟩ := List.mem_map.mp hcmem
    rw [matchesRow_extOf] at hcm
    have heq : r2 = r := collide_unique rows hpair r2 r hr2 hr hcm
    subst heq
    exact applyToRow_extOf_self r2 (hvalid r2 hr2) (hcanon r2 hr2)
  calc rows.map (fun r => (rows.map extOf).foldl (fun r c => stepRow c r) r)
      = rows.map id := List.map_congr_left (fun a ha => hid a ha)
    _ = rows := List.map_id rows

/-- C6 witness: the amended round trip on a concrete canonical row set. -/
theorem claim6_witness :
    getConfigurations "mV" [c6wrow] = Except.ok [c6wrec]
    ∧ List.Pairwise (fun a b => collide a b = false) [c6wrow]
    ∧ (∀ r ∈ [c6wrow], canonicalRow r = true)
    ∧ (roundTripMerge "mV" [c6wrow]).1 = [c6wrow] :=
  ⟨by decide, by simp, by decide,
    claim6_roundtrip_amended "mV" [c6wrow] [c6wrec] (by decide) (by simp) (by decide)⟩

/-- C7: the save-direction serialization emits `reference` and `tolerance`
as strings (string fields of the saved record, string values in the loaded
document), maps the `"N/A"` sentinel in `range_setting` to null and never
emits the string `"N/A"` there, and copies `test_value`, `io_type` and
`range_input` unchanged. -/
theorem claim7_save_shape (c : ConfigRecord) :
    (serializeRecord c).reference = numToString c.reference
    ∧ (serializeRecord c).tolerance = numToString c.tolerance
    ∧ (serializeRecord c).toExt.reference = JVal.str (numToString c.reference)
    ∧ (serializeRecord c).toExt.tolerance = JVal.str (numToString c.tolerance)
    ∧ (c.range_setting = "N/A" → (serializeRecord c).range_setting = JVal.null)
    ∧ (serializeRecord c).range_setting ≠ JVal.str "N/A"
    ∧ (serializeRecord c).test_value = c.test_value
    ∧ (serializeRecord c).io_type = c.io_type
    ∧ (serializeRecord c).range_input = c.range_input := by
  refine ⟨rfl, rfl, rfl, rfl, ?_, ?_, rfl, rfl, rfl⟩
  · intro h
    show (if c.range_setting = "N/A" then JVal.null else JVal.str c.range_setting) = JVal.null
    rw [if_pos h]
  · show (if c.range_setting = "N/A" then JVal.null else JVal.str c.range_setting) ≠ JVal.str "N/A"
    by_cases h : c.range_setting = "N/A"
    · rw [if_pos h]
      intro hh
      cases hh
    · rw [if_neg h]
      intro hh
      injection hh with hh2
      exact h hh2

/-- C7 witness: the sentinel branch at the record extracted from a
sentinel-range row. -/
theorem claim7_witness :
    c6wrec.range_setting = "N/A"
    ∧ (serializeRecord c6wrec).range_setting = JVal.null
    ∧ (serializeRecord c6wrec).reference = "5"
    ∧ (serializeRecord c6wrec).tolerance = "0.25" :=
  ⟨rfl, (claim7_save_shape c6wrec).2.2.2.2.1 rfl, by decide, by decide⟩

/-- C8: the merge never fails — a document without a `configurations` key
merges as the empty list (no mutation, count 0), and an external record
matching no current row is dropped without error or mutation: deleting it
from the record list leaves the whole merge result unchanged. -/
theorem claim8_merge_total :
    (∀ (u : JVal) (rows : List Row),
        applyConfig { unit := u, configurations := none } rows = (rows, 0))
    ∧ (∀ (pre post : List ExtRecord) (c : ExtRecord) (rows : List Row),
        (∀ r ∈ rows, matchesRow c r = false) →
        applyConfigs (pre ++ c :: post) rows = applyConfigs (pre ++ post) rows) := by
  constructor
  · intro u rows
    rfl
  · intro pre post c rows hnone
    have hfst : (applyConfigs (pre ++ c :: post) rows).1
        = (applyConfigs (pre ++ post) rows).1 := by
      rw [applyConfigs_fst, applyConfigs_fst]
      apply List.map_congr_left
      intro r hr
      rw [List.foldl_append, List.foldl_append, List.foldl_cons]
      have hms : matchesRow c (List.foldl (fun r c => stepRow c r) r pre) = false := by
        rw [matchesRow_foldl_stepRow]
        exact hnone r hr
      rw [stepRow_eq_of_no_match c _ hms]
    have hsnd : (applyConfigs (pre ++ c :: post) rows).2
        = (applyConfigs (pre ++ post) rows).2 := by
      rw [applyConfigs_snd, applyConfigs_snd, List.map_append, List.map_append, List.map_cons,
        List.sum_append, List.sum_append, List.sum_cons]
      have hzero : rows.countP (fun r => matchesRow c r) = 0 := by
        rw [List.countP_eq_zero]
        intro r hr
        rw [hnone r hr]
        exact Bool.false_ne_true
      rw [hzero, Nat.zero_add]
    exact Prod.ext hfst hsnd

/-- C8 witness: an absent `configurations` key and a zero-match record over
a concrete row. -/
theorem claim8_witness :
    applyConfig { unit := JVal.null, configurations := none } [c8row] = ([c8row], 0)
    ∧ (∀ r ∈ [c8row], matchesRow c8ext r = false)
    ∧ applyConfigs ([] ++ c8ext :: []) [c8row] = applyConfigs ([] ++ []) [c8row] :=
  ⟨claim8_merge_total.1 JVal.null [c8row], by decide,
    claim8_merge_total.2 [] [] c8ext [c8row] (by decide)⟩

/-- C9: on a matched row, each editable input keeps its current value
exactly when the external record's field is `undefined`, and is otherwise
treated as supplied and overwritten with the field's value under the input
value setter's coercion — null (written as the empty string per
`[LegacyNullToEmptyString]`) and the empty string included. -/
theorem claim9_undefined_absent (c : ExtRecord) (rows : List Row) :
    List.Forall₂ (fun r rr => matchesRow c r = true →
        rr.rangeInput = (if c.range_input = JVal.undef then r.rangeInput
          else inputValueSet c.range_input)
        ∧ rr.refInput = (if c.reference = JVal.undef then r.refInput
          else inputValueSet c.reference)
        ∧ rr.tolInput = (if c.tolerance = JVal.undef then r.tolInput
          else inputValueSet c.tolerance))
      rows (mergeOne c rows).1 := by
  rw [mergeOne_eq]
  show List.Forall₂ _ rows (rows.map (stepRow c))
  rw [List.forall₂_map_right_iff, List.forall₂_same]
  intro r _ hm
  show (stepRow c r).rangeInput = _ ∧ (stepRow c r).refInput = _ ∧ (stepRow c r).tolInput = _
  unfold stepRow
  rw [if_pos hm]
  exact ⟨rfl, rfl, rfl⟩

/-- C9 witness: a matched row under a record with `range_input` absent,
`reference` null and `tolerance` the empty string: the range input is left
untouched, while reference and tolerance are both overwritten — the null
reference as the empty string (per `[LegacyNullToEmptyString]`), the empty
tolerance string as itself — erasing the row's previous `"1"` values. -/
theorem claim9_witness :
    List.Forall₂ (fun r rr => matchesRow c9ext r = true →
        rr.rangeInput = (if c9ext.range_input = JVal.undef then r.rangeInput
          else inputValueSet c9ext.range_input)
        ∧ rr.refInput = (if c9ext.reference = JVal.undef then r.refInput
          else inputValueSet c9ext.reference)
        ∧ rr.tolInput = (if c9ext.tolerance = JVal.undef then r.tolInput
          else inputValueSet c9ext.tolerance))
      [c9row] (mergeOne c9ext [c9row]).1
    ∧ (mergeOne c9ext [c9row]).1
      = [{ c9row with refInput := "", tolInput := "" }] :=
  ⟨claim9_undefined_absent c9ext [c9row], by decide⟩

/-- C10: extraction never validates the test value — a row set whose
reference and tolerance inputs are valid extracts successfully even where a
test value does not parse, the resulting record carrying the parsed (NaN)
test value — and an external record whose test value parses to NaN matches
no row. -/
theorem claim10_nan_test_value (unit : String) (rows : List Row)
    (h : ∀ r ∈ rows, rowValid r = true) :
    (getConfigurations unit rows = Except.ok (rows.map recordOf)
      ∧ ∀ r ∈ rows, (recordOf r).test_value = parseFloat r.testValue)
    ∧ ∀ (E : ExtRecord) (R : Row), parseFloatVal E.test_value = JNum.nan →
        matchesRow E R = false := by
  refine ⟨⟨getConfigurations_ok_of_valid unit rows h, fun r _ => rfl⟩, ?_⟩
  intro E R hnan
  simp only [matchesRow]
  rw [hnan]
  cases parseFloat R.testValue <;> rfl

/-- C10 witness: a row with test value `"abc"` is extracted (not rejected)
with a NaN test value, and its own saved record matches nothing. -/
theorem claim10_witness :
    (∀ r ∈ [c10row], rowValid r = true)
    ∧ getConfigurations "mV" [c10row] = Except.ok ([c10row].map recordOf)
    ∧ (recordOf c10row).test_value = JNum.nan
    ∧ parseFloatVal (extOf c10row).test_value = JNum.nan
    ∧ matchesRow (extOf c10row) c10row = false :=
  ⟨by decide, ((claim10_nan_test_value "mV" [c10row] (by decide)).1).1, by decide, by decide,
    (claim10_nan_test_value "mV" [c10row] (by decide)).2 (extOf c10row) c10row (by decide)⟩
